import Mathlib

/-!
Verification of AudioTranscriber (src/main.py) against its specification.

The Python source is shallowly embedded: pure helpers become Lean functions,
the `main` pipeline becomes a function from an environment of oracles
(filesystem answers, remote-API answers) to a trace of observable events.
Machine arithmetic: Python ints are `Nat`; the one floating-point comparison
(`current_size_mb <= max_size_bytes`) divides by the power of two 2^20, which
is exact in binary floating point, so it is modelled with exact rationals;
the segment-duration computation `int(b / 16000 * 1000)` is modelled as the
exact integer floor `b * 1000 / 16000` (checked to agree with the float
computation on all integer megabyte budgets).
-/

namespace AudioTranscriber

/-- MAX_SIZE_MB = 25 (main.py line 24). -/
def MAX_SIZE_MB : ℕ := 25

/-- Keys of the SUPPORTED_LANGUAGES dict (main.py lines 27-85), in source order. -/
def SUPPORTED_LANGUAGES : List String :=
  ["af", "ar", "hy", "az", "be", "bs", "bg", "ca", "zh", "hr", "cs", "da",
   "nl", "en", "et", "fi", "fr", "gl", "de", "el", "he", "hi", "hu", "is",
   "id", "it", "ja", "kn", "kk", "ko", "lv", "lt", "mk", "ms", "mr", "mi",
   "ne", "no", "fa", "pl", "pt", "ro", "ru", "sr", "sk", "sl", "es", "sw",
   "sv", "tl", "ta", "th", "tr", "uk", "ur", "vi", "cy"]

/-- VIDEO_EXTENSIONS (main.py line 88). -/
def VIDEO_EXTENSIONS : List String := [".mp4", ".mov", ".avi", ".mkv", ".flv", ".wmv"]

/-- Index of the last occurrence of character c in the list, scanning with
offset i; none if absent.  Helper for the os.path functions. -/
def lastIdxAux (c : Char) : List Char → ℕ → Option ℕ
  | [], _ => none
  | x :: xs, i =>
    match lastIdxAux c xs (i + 1) with
    | some j => some j
    | none => if x = c then some i else none

/-- Index one past the last '/' of the path (0 if there is no '/'),
i.e. the Python expression p.rfind(slash) + 1. -/
def afterLastSep (s : List Char) : ℕ :=
  match lastIdxAux '/' s 0 with
  | some i => i + 1
  | none => 0

/-- Model of posixpath.splitext: split off the extension starting at the last
dot, provided that dot lies inside the last path component and is preceded
there by at least one non-dot character (leading dots are not extensions). -/
def splitext (p : String) : String × String :=
  let s := p.toList
  match lastIdxAux '.' s 0 with
  | none => (p, "")
  | some dotIdx =>
    let fnameIdx := afterLastSep s
    if fnameIdx ≤ dotIdx ∧ ((s.drop fnameIdx).take (dotIdx - fnameIdx)).any (fun c => c ≠ '.') then
      (String.mk (s.take dotIdx), String.mk (s.drop dotIdx))
    else (p, "")

/-- Model of os.path.basename: everything after the last '/'. -/
def basename (p : String) : String :=
  String.mk (p.toList.drop (afterLastSep p.toList))

/-- Model of Python str.lower, character by character (the extensions involved
are ASCII, where Char.toLower agrees with Python). -/
def strLower (s : String) : String :=
  String.mk (s.toList.map Char.toLower)

/-- is_video_file (main.py lines 130-135): lowercased extension membership in
VIDEO_EXTENSIONS. -/
def is_video_file (p : String) : Bool :=
  VIDEO_EXTENSIONS.contains (strLower (splitext p).2)

/-- Model of Python str.replace on character lists: replace every
non-overlapping occurrence of pat (nonempty) by rep, scanning left to right.
Structural recursion on a fuel argument (kept at least the length of the list) so
the kernel can evaluate it; each step consumes at least one character. -/
def pyReplaceAux (pat rep : List Char) : ℕ → List Char → List Char
  | 0, s => s
  | _, [] => []
  | fuel + 1, c :: cs =>
    if pat ≠ [] ∧ pat.isPrefixOf (c :: cs) then
      rep ++ pyReplaceAux pat rep fuel ((c :: cs).drop pat.length)
    else
      c :: pyReplaceAux pat rep fuel cs

/-- pyReplace pat rep s: Python s.replace(pat, rep) for nonempty pat. -/
def pyReplace (pat rep s : List Char) : List Char :=
  pyReplaceAux pat rep s.length s

/-- Python s.replace(pat, rep) lifted to String. -/
def strReplace (s pat rep : String) : String :=
  String.mk (pyReplace pat.toList rep.toList s.toList)

/-- Substring occurrence test (the Python test `pat in s`), for nonempty pat. -/
def containsSub (pat : List Char) : List Char → Bool
  | [] => decide (pat = [])
  | c :: cs => pat.isPrefixOf (c :: cs) || containsSub pat cs

/-- generate_output_paths (main.py lines 137-150).  The timestamp string
(datetime.now().strftime) is passed in as an oracle value. -/
def generate_output_paths (input_file_path : String) (timestamp : String)
    (provided_output_path : Option String) : String × String :=
  let transcription_path :=
    match provided_output_path with
    | some p => p
    | none => (splitext (basename input_file_path)).1 ++ "_" ++ timestamp ++ "_transcription.txt"
  (transcription_path, strReplace transcription_path "_transcription.txt" "_summary.txt")

/-- Export bitrate in bytes per second: (128 * 1000) / 8 (main.py line 188). -/
def export_bitrate_bps : ℕ := 128 * 1000 / 8

/-- Segment duration in milliseconds (main.py lines 184-192):
max_size_bytes = max_size_mb * 1024 * 1024 - safety_margin;
int(max_size_bytes / 16000 * 1000), taken as the exact integer floor. -/
def segmentDurationMs (max_size_mb safety_margin : ℕ) : ℕ :=
  (max_size_mb * 1024 * 1024 - safety_margin) * 1000 / export_bitrate_bps

/-- One exported segment: its file name and the [startMs, endMs) window of the
source timeline it was sliced from (pydub slicing truncates at the end). -/
structure SegRecord where
  name : String
  startMs : ℕ
  endMs : ℕ
  deriving DecidableEq

/-- Segment file name (main.py line 205): the base name, then _part with the 1-based ordinal k, then .mp3. -/
def segName (base : String) (k : ℕ) : String :=
  base ++ "_part" ++ toString k ++ ".mp3"

/-- The while loop of split_audio (main.py lines 201-212): k segments emitted
so far, current position start.  Structural recursion on a fuel argument kept
at least D - start; each iteration advances start by S, so when 0 < S the fuel
never runs out.  The source loop does not terminate when the computed segment
duration S is zero; the conjunct 0 < S in the guard totalises that diverging
case (the loop returns [] there), and every theorem about it assumes 0 < S. -/
def split_loopAux (S D : ℕ) (base : String) : ℕ → ℕ → ℕ → List SegRecord
  | 0, _, _ => []
  | fuel + 1, start, k =>
    if start < D ∧ 0 < S then
      ⟨segName base (k + 1), start, min (start + S) D⟩ ::
        split_loopAux S D base fuel (start + S) (k + 1)
    else []

/-- The split_audio loop entered at position start with k segments emitted. -/
def split_loop (S D : ℕ) (base : String) (start k : ℕ) : List SegRecord :=
  split_loopAux S D base (D - start) start k

/-- split_audio (main.py lines 177-214) on a decodable audio of D milliseconds:
the list of exported segments. -/
def split_audio (file_path : String) (D : ℕ) (max_size_mb safety_margin : ℕ) :
    List SegRecord :=
  split_loop (segmentDurationMs max_size_mb safety_margin) D (splitext file_path).1 0 0

/-- size check of main (main.py lines 300-304): current_size_mb is the float
size_bytes / (1024 * 1024) — exact, since 2^20 is a power of two — compared
against max_size_bytes = MAX_SIZE_MB * 1024 * 1024.  True selects the direct
branch. -/
def sizeCheckDirect (sizeBytes : ℕ) : Bool :=
  decide ((sizeBytes : ℚ) / (1024 * 1024) ≤ ((MAX_SIZE_MB : ℚ) * 1024 * 1024))

/-- Observable events of a pipeline run, in program order. -/
inductive Event
  | extractCall (video : String)
  | splitCall (path : String)
  | transcribeCall (path : String)
  | writeFile (path content : String)
  | summarizeCall (input : String)
  | removeOk (path : String)
  | removeFail (path : String)
  deriving DecidableEq

/-- Oracles answering the environment queries of the pipeline: filesystem facts and
remote-API results.  transcribe/summarize return none when the call raised one
of the caught exceptions (transcribe_audio / summarize_transcript return None). -/
structure Env where
  inputExists : Bool
  apiKeyPresent : Bool
  extractResult : Option String
  audioSizeBytes : ℕ
  audioDurationMs : ℕ
  transcribe : String → String → Option String
  summarize : String → String → Option String
  tempExistsAtCleanup : Bool
  removeSucceeds : Bool
  timestamp : String

/-- The per-segment loop of main (main.py lines 329-336): one transcribe_audio
call per segment in order; the text is kept only when truthy (Python
`if segment_transcription:` — None and the empty string are both skipped).
Returns the event trace of the loop and the accumulated texts. -/
def segTranscribe (f : String → String → Option String) (al : String) :
    List SegRecord → List Event × List String
  | [] => ([], [])
  | s :: rest =>
    let r := segTranscribe f al rest
    (Event.transcribeCall s.name :: r.1,
     match f s.name al with
     | some t => if t = "" then r.2 else t :: r.2
     | none => r.2)

/-- The summary step shared by both branches (main.py lines 313-320 and
343-350): call summarize_transcript, write the summary file only when the
result is truthy (`if summary:`). -/
def summaryStep (env : Env) (sl text spath : String) : List Event :=
  Event.summarizeCall text ::
    (match env.summarize text sl with
     | some s => if s = "" then [] else [Event.writeFile spath s]
     | none => [])

/-- The size-check branch of main (main.py lines 299-350): direct
transcription when sizeCheckDirect holds (writes happen only when the
transcription is truthy), otherwise split, transcribe each segment, always
write the joined transcription, then summarize. -/
def branchCore (env : Env) (audioPath al sl tpath spath : String) : List Event :=
  if sizeCheckDirect env.audioSizeBytes then
    Event.transcribeCall audioPath ::
      (match env.transcribe audioPath al with
       | some t =>
         if t = "" then []
         else Event.writeFile tpath t :: summaryStep env sl t spath
       | none => [])
  else
    let segs := split_audio audioPath env.audioDurationMs MAX_SIZE_MB 5000
    let r := segTranscribe env.transcribe al segs
    let combined := String.intercalate "\n" r.2
    Event.splitCall audioPath :: r.1 ++
      Event.writeFile tpath combined :: summaryStep env sl combined spath

/-- The final cleanup of main (main.py lines 352-358): only for a video input
whose audio path is truthy and still exists; removal failure is caught and
reported. -/
def cleanupStep (env : Env) (input audioPath : String) : List Event :=
  if is_video_file input ∧ audioPath ≠ "" ∧ env.tempExistsAtCleanup then
    if env.removeSucceeds then [Event.removeOk audioPath] else [Event.removeFail audioPath]
  else []

/-- main (main.py lines 274-358) as a trace of observable events.  The
transcript_language parameter tl is accepted and never read, exactly as in the
source. -/
def mainRun (env : Env) (input al tl sl : String) (out : Option String) : List Event :=
  if env.inputExists = false then []
  else if env.apiKeyPresent = false then []
  else
    let paths := generate_output_paths input env.timestamp out
    if is_video_file input then
      match env.extractResult with
      | none => [Event.extractCall input]
      | some ap =>
        Event.extractCall input ::
          branchCore env ap al sl paths.1 paths.2 ++ cleanupStep env input ap
    else
      branchCore env input al sl paths.1 paths.2 ++ cleanupStep env input input

/-- Result of the whole program (main.py lines 360-368): parse_arguments
validates the three language codes against SUPPORTED_LANGUAGES and
parser.error exits with status 2 before main is ever entered; otherwise main
runs and the process exits 0. -/
inductive RunResult
  | argError
  | ran (trace : List Event)
  deriving DecidableEq

/-- Language validation loop of parse_arguments (main.py lines 112-114). -/
def validateLanguages (al tl sl : String) : Bool :=
  SUPPORTED_LANGUAGES.contains al && SUPPORTED_LANGUAGES.contains tl &&
    SUPPORTED_LANGUAGES.contains sl

/-- The __main__ entry point: validate arguments, then run main. -/
def runProgram (env : Env) (input al tl sl : String) (out : Option String) : RunResult :=
  if validateLanguages al tl sl then RunResult.ran (mainRun env input al tl sl out)
  else RunResult.argError

/-- Process exit status: parser.error exits 2, a completed main exits 0. -/
def exitCode : RunResult → ℕ
  | RunResult.argError => 2
  | RunResult.ran _ => 0

/-- Events actually performed by a run (an argument error performs none). -/
def runEvents : RunResult → List Event
  | RunResult.argError => []
  | RunResult.ran t => t

/-- Substring occurrence test lifted to String. -/
def strContains (s pat : String) : Bool :=
  containsSub pat.toList s.toList

/-! Helper lemmas. -/

theorem mk_toList (s : String) : String.mk s.toList = s := rfl

theorem pyReplaceAux_of_not_contains (pat rep : List Char) :
    ∀ fuel s, containsSub pat s = false → pyReplaceAux pat rep fuel s = s := by
  intro fuel
  induction fuel with
  | zero => intro s _; cases s <;> rfl
  | succ n ih =>
    intro s h
    match s with
    | [] => rfl
    | c :: cs =>
      have h2 : (pat.isPrefixOf (c :: cs) || containsSub pat cs) = false := h
      rw [Bool.or_eq_false_iff] at h2
      show (if pat ≠ [] ∧ pat.isPrefixOf (c :: cs) then _ else c :: pyReplaceAux pat rep n cs) = _
      rw [if_neg (by simp [h2.1]), ih cs h2.2]

theorem strReplace_of_not_contains (s pat rep : String)
    (h : strContains s pat = false) : strReplace s pat rep = s := by
  unfold strReplace pyReplace
  rw [pyReplaceAux_of_not_contains _ _ _ _ h, mk_toList]

/-! Claim theorems. -/

/-- C8: is_video_file is a pure function of the extension of the path compared
case-insensitively; an extension in VIDEO_EXTENSIONS classifies as video and
everything else as audio; movie.MKV is video and lecture.flac is audio. -/
theorem C8_classify_by_extension :
    (∀ p q : String, strLower (splitext p).2 = strLower (splitext q).2 →
        is_video_file p = is_video_file q)
    ∧ (∀ p : String, is_video_file p = VIDEO_EXTENSIONS.contains (strLower (splitext p).2))
    ∧ is_video_file "movie.MKV" = true
    ∧ is_video_file "lecture.flac" = false := by
  refine ⟨fun p q h => ?_, fun p => rfl, by decide, by decide⟩
  unfold is_video_file
  rw [h]

/-- C8 witness: the pure-function part at two concrete paths whose extensions
agree up to case. -/
theorem C8_classify_witness :
    strLower (splitext "a.avi").2 = strLower (splitext "b/c.AVI").2 ∧
      is_video_file "a.avi" = is_video_file "b/c.AVI" :=
  ⟨by decide, C8_classify_by_extension.1 "a.avi" "b/c.AVI" (by decide)⟩

/-- C3 counterexample: with a user-provided output path that does not follow
the suffix convention, the summary path equals the transcript path — nothing
is appended, and the summary overwrites the transcript — refuting the claim
that the two paths always differ. -/
theorem C3_counterexample_summary_eq_transcript :
    (generate_output_paths "lecture.mp3" "20240101000000" (some "transcript.txt")).2
      = (generate_output_paths "lecture.mp3" "20240101000000" (some "transcript.txt")).1 := by
  decide

/-- C3 amended: the summary path is obtained from the transcript path by
replacing every occurrence of _transcription.txt with _summary.txt (Python
str.replace); when the transcript path does not contain that substring the
summary path equals the transcript path, so the claimed appending never
happens; a default-generated transcript path always ends with
_transcription.txt. -/
theorem C3_summary_path_replace (input ts : String) (provided : Option String) :
    (generate_output_paths input ts provided).2
      = strReplace (generate_output_paths input ts provided).1 "_transcription.txt" "_summary.txt"
    ∧ (strContains (generate_output_paths input ts provided).1 "_transcription.txt" = false →
        (generate_output_paths input ts provided).2 = (generate_output_paths input ts provided).1)
    ∧ (provided = none →
        ∃ b, (generate_output_paths input ts provided).1 = b ++ "_transcription.txt") := by
  refine ⟨rfl, fun h => strReplace_of_not_contains _ _ _ h, fun hp => ?_⟩
  subst hp
  exact ⟨(splitext (basename input)).1 ++ "_" ++ ts, rfl⟩

/-- C3 witness: the amended theorem instantiated at a provided path without
the suffix convention. -/
theorem C3_summary_path_witness :
    strContains (generate_output_paths "in.mp3" "x" (some "out.txt")).1 "_transcription.txt" = false
    ∧ (generate_output_paths "in.mp3" "x" (some "out.txt")).2
        = (generate_output_paths "in.mp3" "x" (some "out.txt")).1 :=
  ⟨by decide, (C3_summary_path_replace "in.mp3" "x" (some "out.txt")).2.1 (by decide)⟩

/-- Ceiling division on ℕ. -/
def ceilDiv (n m : ℕ) : ℕ := (n + m - 1) / m

theorem ceilDiv_zero (S : ℕ) (hS : 0 < S) : ceilDiv 0 S = 0 := by
  unfold ceilDiv
  rw [Nat.div_eq_of_lt (by omega)]

theorem ceilDiv_step (x S : ℕ) (hx : 0 < x) (hS : 0 < S) :
    ceilDiv x S = ceilDiv (x - S) S + 1 := by
  unfold ceilDiv
  rcases le_or_lt x S with h | h
  · have h1 : x - S = 0 := by omega
    have h2 : x + S - 1 = (x - 1) + S := by omega
    rw [h1, h2, Nat.add_div_right _ hS, Nat.div_eq_of_lt (by omega),
      Nat.div_eq_of_lt (by omega)]
  · have h2 : x + S - 1 = (x - 1) + S := by omega
    have h3 : x - S + S - 1 = (x - S - 1) + S := by omega
    have h4 : x - 1 = (x - S - 1) + S := by omega
    rw [h2, h3, h4, Nat.add_div_right _ hS, Nat.add_div_right _ hS]

/-- The j-th window (0-based) emitted by the split loop entered at position
start with k segments already emitted. -/
def segWin (base : String) (S D k start : ℕ) (j : ℕ) : SegRecord :=
  ⟨segName base (k + j + 1), start + j * S, min (start + (j + 1) * S) D⟩

theorem split_loopAux_eq (S D : ℕ) (hS : 0 < S) (base : String) :
    ∀ fuel start k, D ≤ start + fuel →
      split_loopAux S D base fuel start k =
        (List.range (ceilDiv (D - start) S)).map (segWin base S D k start) := by
  intro fuel
  induction fuel with
  | zero =>
    intro start k h
    have h0 : D - start = 0 := by omega
    rw [h0, ceilDiv_zero S hS]
    rfl
  | succ n ih =>
    intro start k h
    by_cases hlt : start < D
    · show (if start < D ∧ 0 < S then _ else _) = _
      rw [if_pos ⟨hlt, hS⟩, ih (start + S) (k + 1) (by omega)]
      have hsub : D - (start + S) = D - start - S := by omega
      rw [hsub, ceilDiv_step (D - start) S (by omega) hS, List.range_succ_eq_map,
        List.map_cons, List.map_map]
      congr 1
      · simp [segWin]
      · refine List.map_congr_left fun j _ => ?_
        show segWin base S D (k + 1) (start + S) j = segWin base S D k start (j + 1)
        unfold segWin
        rw [(by omega : k + 1 + j + 1 = k + (j + 1) + 1),
          (by ring : start + S + j * S = start + (j + 1) * S),
          (by ring : start + S + (j + 1) * S = start + (j + 1 + 1) * S)]
    · show (if start < D ∧ 0 < S then _ else _) = _
      rw [if_neg (by tauto)]
      have h0 : D - start = 0 := by omega
      rw [h0, ceilDiv_zero S hS]
      rfl

theorem split_audio_eq (path : String) (D mb margin : ℕ)
    (hS : 0 < segmentDurationMs mb margin) :
    split_audio path D mb margin =
      (List.range (ceilDiv D (segmentDurationMs mb margin))).map
        (segWin (splitext path).1 (segmentDurationMs mb margin) D 0 0) := by
  unfold split_audio split_loop
  rw [split_loopAux_eq _ _ hS _ (D - 0) 0 0 (by omega)]
  simp only [Nat.sub_zero]

theorem split_audio_length (path : String) (D mb margin : ℕ)
    (hS : 0 < segmentDurationMs mb margin) :
    (split_audio path D mb margin).length = ceilDiv D (segmentDurationMs mb margin) := by
  rw [split_audio_eq path D mb margin hS]
  simp

theorem split_audio_getD (path : String) (D mb margin : ℕ)
    (hS : 0 < segmentDurationMs mb margin) (i : ℕ)
    (h : i < ceilDiv D (segmentDurationMs mb margin)) :
    (split_audio path D mb margin).getD i ⟨"", 0, 0⟩ =
      ⟨segName (splitext path).1 (i + 1),
       i * segmentDurationMs mb margin,
       min ((i + 1) * segmentDurationMs mb margin) D⟩ := by
  rw [split_audio_eq path D mb margin hS,
    List.getD_eq_getElem _ _ (by simpa using h)]
  simp [segWin]

/-- The segmentation property claimed of split_audio: the window length S is
floor((maxSizeBytes - safetyMarginBytes) / 16000 * 1000) milliseconds, the
windows start at 0, S, 2S, ..., the last one is truncated to the end of the
timeline, they cover [0, D) without gap or overlap, their number is ceil(D / S),
and the i-th exported file is named with the 1-based ordinal suffix _part(i+1)
on the base name of the parent. -/
def SegSpec (path : String) (D mb margin : ℕ) : Prop :=
  segmentDurationMs mb margin = (mb * 1024 * 1024 - margin) * 1000 / 16000
  ∧ (split_audio path D mb margin).length = ceilDiv D (segmentDurationMs mb margin)
  ∧ (∀ i, i < (split_audio path D mb margin).length →
      ((split_audio path D mb margin).getD i ⟨"", 0, 0⟩).startMs
          = i * segmentDurationMs mb margin
      ∧ ((split_audio path D mb margin).getD i ⟨"", 0, 0⟩).endMs
          = min ((i + 1) * segmentDurationMs mb margin) D
      ∧ ((split_audio path D mb margin).getD i ⟨"", 0, 0⟩).name
          = segName (splitext path).1 (i + 1))
  ∧ (∀ t, t < D → ∃ i, i < (split_audio path D mb margin).length
      ∧ ((split_audio path D mb margin).getD i ⟨"", 0, 0⟩).startMs ≤ t
      ∧ t < ((split_audio path D mb margin).getD i ⟨"", 0, 0⟩).endMs)

/-- C2: for every decodable timeline of D milliseconds and every budget whose
computed window length is positive, split_audio satisfies SegSpec. -/
theorem C2_split_audio_windows (path : String) (D mb margin : ℕ)
    (hS : 0 < segmentDurationMs mb margin) : SegSpec path D mb margin := by
  set S := segmentDurationMs mb margin with hSdef
  have hlen := split_audio_length path D mb margin hS
  rw [← hSdef] at hlen
  refine ⟨rfl, hlen, fun i h => ?_, fun t ht => ?_⟩
  · rw [split_audio_getD path D mb margin hS i (by rw [← hSdef]; omega)]
    exact ⟨rfl, rfl, rfl⟩
  · have hi : t / S < ceilDiv D S := by
      have h1 : t / S ≤ (D - 1) / S := Nat.div_le_div_right (by omega)
      have h2 : ceilDiv D S = (D - 1) / S + 1 := by
        unfold ceilDiv
        rw [(by omega : D + S - 1 = (D - 1) + S), Nat.add_div_right _ hS]
      omega
    refine ⟨t / S, by omega, ?_⟩
    rw [split_audio_getD path D mb margin hS (t / S) hi]
    refine ⟨Nat.div_mul_le_self t S, ?_⟩
    have h2 : t % S < S := Nat.mod_lt t hS
    have h3 : t < S * (t / S) + S := by
      conv_lhs => rw [← Nat.div_add_mod t S]
      exact Nat.add_lt_add_left h2 _
    have h4 : (t / S + 1) * S = S * (t / S) + S := by ring
    show t < min ((t / S + 1) * S) D
    rw [lt_min_iff]
    exact ⟨by omega, ht⟩

/-- C2 witness: the segmentation property at the default budget on a concrete
timeline. -/
theorem C2_split_audio_windows_witness :
    0 < segmentDurationMs 25 5000 ∧ SegSpec "a.mp3" 2000000 25 5000 :=
  ⟨by decide, C2_split_audio_windows "a.mp3" 2000000 25 5000 (by decide)⟩

theorem sizeCheckDirect_true_of_le (b : ℕ) (h : b ≤ 27487790694400) :
    sizeCheckDirect b = true := by
  unfold sizeCheckDirect
  rw [decide_eq_true_eq, div_le_iff₀ (by norm_num : (0 : ℚ) < 1024 * 1024)]
  have he : ((MAX_SIZE_MB : ℚ)) * 1024 * 1024 * (1024 * 1024) = 27487790694400 := by
    norm_num [MAX_SIZE_MB]
  rw [he]
  exact_mod_cast h

theorem sizeCheckDirect_false_of_gt (b : ℕ) (h : 27487790694400 < b) :
    sizeCheckDirect b = false := by
  unfold sizeCheckDirect
  rw [decide_eq_false_iff_not]
  intro hc
  rw [div_le_iff₀ (by norm_num : (0 : ℚ) < 1024 * 1024)] at hc
  have he : ((MAX_SIZE_MB : ℚ)) * 1024 * 1024 * (1024 * 1024) = 27487790694400 := by
    norm_num [MAX_SIZE_MB]
  rw [he] at hc
  have hb : (b : ℚ) ≤ ((27487790694400 : ℕ) : ℚ) := by exact_mod_cast hc
  rw [Nat.cast_le] at hb
  omega

theorem segTranscribe_events (f : String → String → Option String) (al : String)
    (segs : List SegRecord) :
    (segTranscribe f al segs).1 = segs.map (fun s => Event.transcribeCall s.name) := by
  induction segs with
  | nil => rfl
  | cons s rest ih =>
    show Event.transcribeCall s.name :: (segTranscribe f al rest).1 = _
    rw [ih]
    rfl

theorem segTranscribe_texts (f : String → String → Option String) (al : String)
    (segs : List SegRecord) :
    (segTranscribe f al segs).2 = segs.filterMap (fun s =>
      match f s.name al with
      | some t => if t = "" then none else some t
      | none => none) := by
  induction segs with
  | nil => rfl
  | cons s rest ih =>
    rcases hf : f s.name al with _ | t
    · simp [segTranscribe, hf, ih]
    · by_cases ht : t = "" <;> simp [segTranscribe, hf, ht, ih]

theorem segTranscribe_texts_nil (f : String → String → Option String) (al : String)
    (h : ∀ p l, f p l = none) (segs : List SegRecord) :
    (segTranscribe f al segs).2 = [] := by
  rw [segTranscribe_texts]
  induction segs with
  | nil => rfl
  | cons s rest ih => simp [List.filterMap_cons, h, ih]

theorem branchCore_no_remove (env : Env) (audioPath al sl tpath spath : String) (p : String) :
    Event.removeOk p ∉ branchCore env audioPath al sl tpath spath
    ∧ Event.removeFail p ∉ branchCore env audioPath al sl tpath spath := by
  unfold branchCore summaryStep
  by_cases hs : sizeCheckDirect env.audioSizeBytes
  · rcases ht : env.transcribe audioPath al with _ | t
    · simp [hs, ht]
    · by_cases hte : t = ""
      · simp [hs, ht, hte]
      · rcases hsum : env.summarize t sl with _ | u
        · simp [hs, ht, hte, hsum]
        · by_cases hue : u = "" <;> simp [hs, ht, hte, hsum, hue]
  · rcases hsum : env.summarize
        (String.intercalate "\n"
          (segTranscribe env.transcribe al
            (split_audio audioPath env.audioDurationMs MAX_SIZE_MB 5000)).2) sl with _ | u
    · simp [hs, hsum, segTranscribe_events]
    · by_cases hue : u = "" <;> simp [hs, hsum, hue, segTranscribe_events]

/-- Env with the removal oracle replaced. -/
def setRemove (e : Env) (b : Bool) : Env :=
  ⟨e.inputExists, e.apiKeyPresent, e.extractResult, e.audioSizeBytes, e.audioDurationMs,
   e.transcribe, e.summarize, e.tempExistsAtCleanup, b, e.timestamp⟩

/-- A concrete environment whose remote calls all fail. -/
def env0 : Env :=
  ⟨true, true, none, 0, 0, fun _ _ => none, fun _ _ => none, true, true, "t"⟩

/-- C7: when any of the three language arguments is not a key of the
supported-language table, the program exits with an argument error and a
non-zero status before performing any event (no file I/O, no network call,
no partial output). -/
theorem C7_invalid_language_rejected (env : Env) (input al tl sl : String) (out : Option String)
    (h : al ∉ SUPPORTED_LANGUAGES ∨ tl ∉ SUPPORTED_LANGUAGES ∨ sl ∉ SUPPORTED_LANGUAGES) :
    runProgram env input al tl sl out = RunResult.argError
    ∧ exitCode (runProgram env input al tl sl out) ≠ 0
    ∧ runEvents (runProgram env input al tl sl out) = [] := by
  have hv : validateLanguages al tl sl = false := by
    rcases h with h | h | h <;> simp [validateLanguages, h]
  refine ⟨?_, ?_, ?_⟩ <;> simp [runProgram, hv, exitCode, runEvents]

/-- C7 witness: the invalid code "xx" is rejected with exit status 2 and an
empty event trace. -/
theorem C7_invalid_language_witness :
    "xx" ∉ SUPPORTED_LANGUAGES
    ∧ (runProgram env0 "a.mp3" "xx" "en" "en" none = RunResult.argError
        ∧ exitCode (runProgram env0 "a.mp3" "xx" "en" "en" none) ≠ 0
        ∧ runEvents (runProgram env0 "a.mp3" "xx" "en" "en" none) = []) :=
  ⟨by decide, C7_invalid_language_rejected env0 "a.mp3" "xx" "en" "en" none (Or.inl (by decide))⟩

/-- C9: the transcript_language argument is validated but never read by main:
two runs that differ only in a valid transcript-language code produce the same
result, events and all. -/
theorem C9_transcript_language_unused (env : Env) (input al sl : String) (out : Option String)
    (tl1 tl2 : String) (h1 : tl1 ∈ SUPPORTED_LANGUAGES) (h2 : tl2 ∈ SUPPORTED_LANGUAGES) :
    runProgram env input al tl1 sl out = runProgram env input al tl2 sl out := by
  have hc1 : SUPPORTED_LANGUAGES.contains tl1 = true := by simp [h1]
  have hc2 : SUPPORTED_LANGUAGES.contains tl2 = true := by simp [h2]
  unfold runProgram validateLanguages
  rw [hc1, hc2]
  rfl

/-- C9 witness: two valid transcript-language codes give identical runs. -/
theorem C9_transcript_language_witness :
    "en" ∈ SUPPORTED_LANGUAGES ∧ "pt" ∈ SUPPORTED_LANGUAGES
    ∧ runProgram env0 "a.mp3" "en" "en" "en" none = runProgram env0 "a.mp3" "en" "pt" "en" none :=
  ⟨by decide, by decide,
    C9_transcript_language_unused env0 "a.mp3" "en" "en" none "en" "pt" (by decide) (by decide)⟩

/-- A concrete environment holding a 30 MiB audio file. -/
def envC1 : Env :=
  ⟨true, true, none, 31457280, 0, fun _ _ => none, fun _ _ => none, true, true, "ts"⟩

/-- C1 (code bug): a 31457280-byte (30 MiB) audio input exceeds the 25 MB
limit, yet main takes the direct branch — a single whole-file transcription
call and no Segmenter invocation — because line 304 compares the size in MB
(30) against the limit in bytes (26214400). -/
theorem C1_oversize_file_takes_direct_branch :
    25 * 1024 * 1024 < envC1.audioSizeBytes
    ∧ sizeCheckDirect envC1.audioSizeBytes = true
    ∧ mainRun envC1 "big.mp3" "en" "en" "en" none = [Event.transcribeCall "big.mp3"] := by
  have hs : sizeCheckDirect (31457280 : ℕ) = true :=
    sizeCheckDirect_true_of_le _ (by decide)
  have hv : is_video_file "big.mp3" = false := by decide
  refine ⟨by decide, hs, ?_⟩
  simp [mainRun, envC1, hv, branchCore, cleanupStep, hs, envC1]

/-- The C4 transcription oracle: the first segment succeeds with empty text,
the second succeeds with "b". -/
def fC4 : String → String → Option String :=
  fun p _ => if p = "s1.mp3" then some "" else some "b"

/-- The C4 segment list. -/
def segsC4 : List SegRecord := [⟨"s1.mp3", 0, 10⟩, ⟨"s2.mp3", 10, 20⟩]

/-- C4 counterexample: both segment transcriptions succeed (the first with
empty text), but the aggregated transcript "b" is not the newline join of
the successfully recovered texts, which would be the join of ["", "b"],
"\nb" — the truthiness test in the code drops an empty successful text. -/
theorem C4_counterexample_empty_text_dropped :
    fC4 "s1.mp3" "en" = some ""
    ∧ fC4 "s2.mp3" "en" = some "b"
    ∧ String.intercalate "\n" (segTranscribe fC4 "en" segsC4).2 = "b"
    ∧ String.intercalate "\n" (segsC4.filterMap (fun s => fC4 s.name "en")) = "\nb" := by
  refine ⟨rfl, rfl, ?_, ?_⟩ <;> decide

/-- C4 amended: the aggregated transcript is the newline join of exactly the
non-empty successfully recovered texts in segment order (a failed segment, or
one whose recovered text is empty, contributes no text and leaves no
placeholder), and each segment receives exactly one transcription call, in
order — none is retried. -/
theorem C4_aggregation_in_order (f : String → String → Option String) (al : String)
    (segs : List SegRecord) :
    String.intercalate "\n" (segTranscribe f al segs).2
      = String.intercalate "\n" (segs.filterMap (fun s =>
          match f s.name al with
          | some t => if t = "" then none else some t
          | none => none))
    ∧ (segTranscribe f al segs).1 = segs.map (fun s => Event.transcribeCall s.name) :=
  ⟨by rw [segTranscribe_texts], segTranscribe_events f al segs⟩

theorem branchCore_setRemove (env : Env) (b : Bool) (audioPath al sl tpath spath : String) :
    branchCore (setRemove env b) audioPath al sl tpath spath
      = branchCore env audioPath al sl tpath spath := rfl

theorem mainRun_video_eq (env : Env) (input al tl sl ap : String) (out : Option String)
    (hex : env.inputExists = true) (hkey : env.apiKeyPresent = true)
    (hvid : is_video_file input = true) (hext : env.extractResult = some ap) :
    mainRun env input al tl sl out =
      Event.extractCall input ::
        branchCore env ap al sl (generate_output_paths input env.timestamp out).1
          (generate_output_paths input env.timestamp out).2
        ++ cleanupStep env input ap := by
  simp [mainRun, hex, hkey, hvid, hext]

/-- C5: in the segmented path, when every transcription call fails, the
transcript file is still written — with empty content — and summarization is
still attempted on that empty input (the summarize oracle is unconstrained, so
the transcript write happens whatever the fate of the summary). -/
theorem C5_all_segments_fail (env : Env) (input al tl sl : String) (out : Option String)
    (hex : env.inputExists = true) (hkey : env.apiKeyPresent = true)
    (hvid : is_video_file input = false)
    (hsize : sizeCheckDirect env.audioSizeBytes = false)
    (hfail : ∀ p l, env.transcribe p l = none) :
    Event.writeFile (generate_output_paths input env.timestamp out).1 ""
        ∈ mainRun env input al tl sl out
    ∧ Event.summarizeCall "" ∈ mainRun env input al tl sl out := by
  have htexts := segTranscribe_texts_nil env.transcribe al hfail
    (split_audio input env.audioDurationMs MAX_SIZE_MB 5000)
  constructor <;>
    simp [mainRun, hex, hkey, hvid, branchCore, hsize, htexts, summaryStep, cleanupStep,
      String.intercalate]

/-- A concrete environment holding an audio file over the 25 TB threshold the
buggy size check actually enforces, whose remote calls all fail. -/
def envC5 : Env :=
  ⟨true, true, none, 27487790694401, 3276175, fun _ _ => none, fun _ _ => none, true, true, "ts"⟩

/-- C5 witness: the all-segments-fail property at a concrete environment. -/
theorem C5_all_segments_fail_witness :
    sizeCheckDirect envC5.audioSizeBytes = false
    ∧ Event.writeFile (generate_output_paths "huge.mp3" envC5.timestamp none).1 ""
        ∈ mainRun envC5 "huge.mp3" "en" "en" "en" none
    ∧ Event.summarizeCall "" ∈ mainRun envC5 "huge.mp3" "en" "en" "en" none := by
  have hs : sizeCheckDirect envC5.audioSizeBytes = false :=
    sizeCheckDirect_false_of_gt _ (by decide)
  have h := C5_all_segments_fail envC5 "huge.mp3" "en" "en" "en" none rfl rfl (by decide) hs
    (fun _ _ => rfl)
  exact ⟨hs, h.1, h.2⟩

/-- C10: in the direct path, when the whole-file transcription fails or
returns empty text, no transcript file and no summary file are written, yet
the cleanup step still runs (for a video input the extracted temporary audio
is still removed, or its removal failure reported). -/
theorem C10_direct_failure_no_writes (env : Env) (input al tl sl ap : String) (out : Option String)
    (hex : env.inputExists = true) (hkey : env.apiKeyPresent = true)
    (hvid : is_video_file input = true) (hext : env.extractResult = some ap)
    (hap : ap ≠ "") (htemp : env.tempExistsAtCleanup = true)
    (hsize : sizeCheckDirect env.audioSizeBytes = true)
    (hfail : env.transcribe ap al = none ∨ env.transcribe ap al = some "") :
    (∀ p c, Event.writeFile p c ∉ mainRun env input al tl sl out)
    ∧ (Event.removeOk ap ∈ mainRun env input al tl sl out
        ∨ Event.removeFail ap ∈ mainRun env input al tl sl out) := by
  have hmain : mainRun env input al tl sl out
      = Event.extractCall input :: Event.transcribeCall ap :: cleanupStep env input ap := by
    rcases hfail with hf | hf <;>
      simp [mainRun, hex, hkey, hvid, hext, branchCore, hsize, hf]
  rw [hmain]
  constructor
  · intro p c
    cases hr : env.removeSucceeds <;> simp [cleanupStep, hvid, hap, htemp, hr]
  · cases hr : env.removeSucceeds
    · right; simp [cleanupStep, hvid, hap, htemp, hr]
    · left; simp [cleanupStep, hvid, hap, htemp, hr]

/-- A concrete environment for a video input: extraction yields tmp.mp3, the
extracted audio is small, and both remote services fail. -/
def envC10 : Env :=
  ⟨true, true, some "tmp.mp3", 1000000, 0, fun _ _ => none, fun _ _ => none, true, true, "ts"⟩

/-- C10 witness: the direct-failure property at a concrete video environment. -/
theorem C10_direct_failure_witness :
    sizeCheckDirect envC10.audioSizeBytes = true
    ∧ (∀ p c, Event.writeFile p c ∉ mainRun envC10 "v.mp4" "en" "en" "en" none)
    ∧ (Event.removeOk "tmp.mp3" ∈ mainRun envC10 "v.mp4" "en" "en" "en" none
        ∨ Event.removeFail "tmp.mp3" ∈ mainRun envC10 "v.mp4" "en" "en" "en" none) := by
  have hs : sizeCheckDirect envC10.audioSizeBytes = true :=
    sizeCheckDirect_true_of_le _ (by decide)
  have h := C10_direct_failure_no_writes envC10 "v.mp4" "en" "en" "en" "tmp.mp3" none rfl rfl
    (by decide) rfl (by decide) rfl hs (Or.inl rfl)
  exact ⟨hs, h.1, h.2⟩

/-- C6: at normal exit of a video run the only removal the pipeline ever
performs is of the extracted temporary audio artifact: the trace is a
removal-free core followed by exactly one removal event for that artifact,
removal failure changes only that final event (the written outputs are
identical), and no other path — no segment file, not the source input — is
ever removed. -/
theorem C6_cleanup_removes_only_extracted (env : Env) (input al tl sl ap : String)
    (out : Option String)
    (hex : env.inputExists = true) (hkey : env.apiKeyPresent = true)
    (hvid : is_video_file input = true) (hext : env.extractResult = some ap)
    (hap : ap ≠ "") (htemp : env.tempExistsAtCleanup = true) :
    ∃ core : List Event,
      (∀ p, Event.removeOk p ∉ core ∧ Event.removeFail p ∉ core)
      ∧ mainRun (setRemove env true) input al tl sl out = core ++ [Event.removeOk ap]
      ∧ mainRun (setRemove env false) input al tl sl out = core ++ [Event.removeFail ap]
      ∧ (∀ p, p ≠ ap →
          Event.removeOk p ∉ mainRun (setRemove env true) input al tl sl out
          ∧ Event.removeFail p ∉ mainRun (setRemove env false) input al tl sl out) := by
  have e1 := mainRun_video_eq (setRemove env true) input al tl sl ap out hex hkey hvid hext
  have e2 := mainRun_video_eq (setRemove env false) input al tl sl ap out hex hkey hvid hext
  rw [branchCore_setRemove] at e1 e2
  have hc1 : cleanupStep (setRemove env true) input ap = [Event.removeOk ap] := by
    simp [cleanupStep, setRemove, hvid, hap, htemp]
  have hc2 : cleanupStep (setRemove env false) input ap = [Event.removeFail ap] := by
    simp [cleanupStep, setRemove, hvid, hap, htemp]
  have hts1 : (setRemove env true).timestamp = env.timestamp := rfl
  have hts2 : (setRemove env false).timestamp = env.timestamp := rfl
  rw [hc1, hts1] at e1
  rw [hc2, hts2] at e2
  refine ⟨Event.extractCall input ::
      branchCore env ap al sl (generate_output_paths input env.timestamp out).1
        (generate_output_paths input env.timestamp out).2, fun p => ?_, ?_, ?_, fun p hp => ?_⟩
  · have h := branchCore_no_remove env ap al sl
      (generate_output_paths input env.timestamp out).1
      (generate_output_paths input env.timestamp out).2 p
    constructor <;> simp [List.mem_cons, h.1, h.2]
  · rw [e1, List.cons_append]
  · rw [e2, List.cons_append]
  · have h := branchCore_no_remove env ap al sl
      (generate_output_paths input env.timestamp out).1
      (generate_output_paths input env.timestamp out).2 p
    rw [e1, e2]
    constructor <;> simp [List.mem_append, List.mem_cons, h.1, h.2, hp]

/-- C6 witness: the cleanup property at a concrete video environment. -/
theorem C6_cleanup_witness :
    is_video_file "v.mp4" = true
    ∧ ∃ core : List Event,
        (∀ p, Event.removeOk p ∉ core ∧ Event.removeFail p ∉ core)
        ∧ mainRun (setRemove envC10 true) "v.mp4" "en" "en" "en" none
            = core ++ [Event.removeOk "tmp.mp3"]
        ∧ mainRun (setRemove envC10 false) "v.mp4" "en" "en" "en" none
            = core ++ [Event.removeFail "tmp.mp3"]
        ∧ (∀ p, p ≠ "tmp.mp3" →
            Event.removeOk p ∉ mainRun (setRemove envC10 true) "v.mp4" "en" "en" "en" none
            ∧ Event.removeFail p ∉ mainRun (setRemove envC10 false) "v.mp4" "en" "en" "en" none) :=
  ⟨by decide, C6_cleanup_removes_only_extracted envC10 "v.mp4" "en" "en" "en" "tmp.mp3" none
    rfl rfl (by decide) rfl (by decide) rfl⟩

end AudioTranscriber
